import Mathlib

/-!
Verification of the sprint-analysis core of the Youxel Projects Dashboard.

The Python modules `automation/calculator.py` and `automation/data_processor.py`
are shallowly embedded here: pandas DataFrames become lists of records, Python
floats become exact rationals, a raised exception (pandas KeyError on a missing
column) becomes `Except.error`, and a NaN cell becomes `Option.none`.  The
human-readable `message` strings attached to validation issues are presentation
only and are not modelled; every structured field a message is built from
(kind, count, offending value, reference) is kept.
-/

/-! ### Calculator ratio functions (`calculator.py`, `SprintCalculator`) -/

/-- `SprintCalculator.calculate_performance_rate`:
`Original Estimate / (Completed Work + Remaining Work)`, 0 on a zero denominator. -/
def calculate_performance_rate (original_estimate completed_work remaining_work : ℚ) : ℚ :=
  if completed_work + remaining_work = 0 then 0
  else original_estimate / (completed_work + remaining_work)

/-- `SprintCalculator.calculate_utilization`: `Completed Work / Capacity`,
0 on zero capacity. -/
def calculate_utilization (completed_work capacity : ℚ) : ℚ :=
  if capacity = 0 then 0 else completed_work / capacity

/-- `SprintCalculator.calculate_done_tasks_percentage`: `done / total`,
0 on a zero total. -/
def calculate_done_tasks_percentage (done_count total_count : ℕ) : ℚ :=
  if total_count = 0 then 0 else (done_count : ℚ) / (total_count : ℚ)

/-- `SprintCalculator.calculate_midsprint_addition_percentage`:
`midsprint work / total work`, 0 on a zero denominator. -/
def calculate_midsprint_addition_percentage (midsprint_work total_work : ℚ) : ℚ :=
  if total_work = 0 then 0 else midsprint_work / total_work

/-- `SprintCalculator.calculate_adhoc_percentage`: `ad-hoc work / total work`,
0 on a zero denominator. -/
def calculate_adhoc_percentage (adhoc_work total_work : ℚ) : ℚ :=
  if total_work = 0 then 0 else adhoc_work / total_work

/-- The three weights held in `SprintCalculator.kpi_weights`. -/
structure KpiWeights where
  performance_rate : ℚ
  utilization : ℚ
  done_tasks : ℚ
deriving DecidableEq

/-- The default weights installed by `SprintCalculator.__init__`. -/
def defaultKpiWeights : KpiWeights :=
  { performance_rate := 0.2, utilization := 0.1, done_tasks := 0.7 }

/-- `SprintCalculator.calculate_kpi`: the weighted linear combination. -/
def calculate_kpi (w : KpiWeights) (performance_rate utilization done_tasks_pct : ℚ) : ℚ :=
  performance_rate * w.performance_rate + utilization * w.utilization +
    done_tasks_pct * w.done_tasks

/-! ### Processed Azure rows and aggregation (`data_processor.py`) -/

/-- One row of the processed Azure DevOps table, i.e. the columns
`process_azure_data` adds or consumes.  A NaN cell is `none`. -/
structure AzureRow where
  staff_email : Option String
  staff_name : Option String
  team : Option String
  original_estimate : ℚ
  completed_work : ℚ
  remaining_work : ℚ
  is_done : Bool
  has_midsprint_addition : Bool
  has_adhoc : Bool
deriving DecidableEq

/-- The grouping key of `aggregate_by_staff`: pandas `groupby` keeps a row only
when every key component is non-null. -/
structure StaffKey where
  email : String
  name : String
  team : String
deriving DecidableEq

/-- The staff grouping key of a row, `none` when any component is null
(such a row is dropped by `groupby`). -/
def staffKey (r : AzureRow) : Option StaffKey :=
  match r.staff_email, r.staff_name, r.team with
  | some e, some n, some t => some { email := e, name := n, team := t }
  | _, _, _ => none

/-- First-appearance deduplication, matching the set of distinct group keys. -/
def dedupFirst [DecidableEq α] : List α → List α
  | [] => []
  | a :: l => a :: (dedupFirst l).filter (fun b => decide (b ≠ a))

/-- One output row of `aggregate_by_staff` after column flattening. -/
structure StaffAgg where
  staff_email : String
  staff_name : String
  team : String
  original_estimate_total : ℚ
  completed_work_total : ℚ
  remaining_work_total : ℚ
  done_count : ℕ
  total_count : ℕ
  midsprint_count : ℕ
  adhoc_count : ℕ
deriving DecidableEq

/-- The reduction `aggregate_by_staff` applies to one group of rows:
sums of the work columns, `sum` and `count` of `is_done`, tag counts. -/
def mkStaffAgg (k : StaffKey) (grp : List AzureRow) : StaffAgg :=
  { staff_email := k.email
  , staff_name := k.name
  , team := k.team
  , original_estimate_total := (grp.map (fun r => r.original_estimate)).sum
  , completed_work_total := (grp.map (fun r => r.completed_work)).sum
  , remaining_work_total := (grp.map (fun r => r.remaining_work)).sum
  , done_count := (grp.filter (fun r => r.is_done)).length
  , total_count := grp.length
  , midsprint_count := (grp.filter (fun r => r.has_midsprint_addition)).length
  , adhoc_count := (grp.filter (fun r => r.has_adhoc)).length }

/-- `SprintDataProcessor.aggregate_by_staff`: group the processed rows by
`(staff_email, staff_name, team)`; rows with a null key component are dropped.
Group order is unspecified downstream; first appearance is used here. -/
def aggregate_by_staff (rows : List AzureRow) : List StaffAgg :=
  (dedupFirst (rows.filterMap staffKey)).map
    (fun k => mkStaffAgg k (rows.filter (fun r => decide (staffKey r = some k))))

/-- One output row of `aggregate_by_team` after column flattening. -/
structure TeamAgg where
  team : String
  original_estimate_total : ℚ
  completed_work_total : ℚ
  remaining_work_total : ℚ
  done_count : ℕ
  total_count : ℕ
  midsprint_count : ℕ
  adhoc_count : ℕ
deriving DecidableEq

/-- The reduction `aggregate_by_team` applies to one group of rows. -/
def mkTeamAgg (t : String) (grp : List AzureRow) : TeamAgg :=
  { team := t
  , original_estimate_total := (grp.map (fun r => r.original_estimate)).sum
  , completed_work_total := (grp.map (fun r => r.completed_work)).sum
  , remaining_work_total := (grp.map (fun r => r.remaining_work)).sum
  , done_count := (grp.filter (fun r => r.is_done)).length
  , total_count := grp.length
  , midsprint_count := (grp.filter (fun r => r.has_midsprint_addition)).length
  , adhoc_count := (grp.filter (fun r => r.has_adhoc)).length }

/-- `SprintDataProcessor.aggregate_by_team`: group by `team` alone; rows with a
null team are dropped. -/
def aggregate_by_team (rows : List AzureRow) : List TeamAgg :=
  (dedupFirst (rows.filterMap (fun r => r.team))).map
    (fun t => mkTeamAgg t (rows.filter (fun r => decide (r.team = some t))))

/-! ### Capacity data and the metric engine (`calculator.py`) -/

/-- One row of the capacity table built by `get_capacity_data`. -/
structure CapacityRow where
  staff_member : String
  team : String
  remaining_capacity : ℚ
deriving DecidableEq

/-- One output row of `calculate_staff_metrics`. -/
structure StaffMetrics where
  staff_name : String
  staff_email : String
  team : String
  original_estimate : ℚ
  completed_work : ℚ
  remaining_work : ℚ
  capacity : ℚ
  done_count : ℕ
  total_count : ℕ
  performance_rate : ℚ
  utilization : ℚ
  done_tasks_pct : ℚ
  midsprint_addition_pct : ℚ
  adhoc_pct : ℚ
  kpi : ℚ
deriving DecidableEq

/-- The loop body of `calculate_staff_metrics` for one staff aggregate: look up
capacity by the exact identity string `name <email>` (first matching row,
default 63 on miss), sum tagged completed work over the rows whose
`staff_email` equals this aggregate's email, then compute the five ratios and
the KPI. -/
def staffMetricsRow (w : KpiWeights) (capacity_data : List CapacityRow)
    (azure_data : List AzureRow) (staff : StaffAgg) : StaffMetrics :=
  let capacity : ℚ :=
    match capacity_data.find?
        (fun c => decide
          (c.staff_member = staff.staff_name ++ " <" ++ staff.staff_email ++ ">")) with
    | none => 63
    | some c => c.remaining_capacity
  let staff_tasks := azure_data.filter (fun r => decide (r.staff_email = some staff.staff_email))
  let midsprint_work :=
    ((staff_tasks.filter (fun r => r.has_midsprint_addition)).map (fun r => r.completed_work)).sum
  let adhoc_work :=
    ((staff_tasks.filter (fun r => r.has_adhoc)).map (fun r => r.completed_work)).sum
  let performance_rate := calculate_performance_rate staff.original_estimate_total
    staff.completed_work_total staff.remaining_work_total
  let utilization := calculate_utilization staff.completed_work_total capacity
  let done_tasks_pct := calculate_done_tasks_percentage staff.done_count staff.total_count
  let midsprint_pct := calculate_midsprint_addition_percentage midsprint_work
    staff.completed_work_total
  let adhoc_pct := calculate_adhoc_percentage adhoc_work staff.completed_work_total
  let kpi := calculate_kpi w performance_rate utilization done_tasks_pct
  { staff_name := staff.staff_name
  , staff_email := staff.staff_email
  , team := staff.team
  , original_estimate := staff.original_estimate_total
  , completed_work := staff.completed_work_total
  , remaining_work := staff.remaining_work_total
  , capacity := capacity
  , done_count := staff.done_count
  , total_count := staff.total_count
  , performance_rate := performance_rate
  , utilization := utilization
  , done_tasks_pct := done_tasks_pct
  , midsprint_addition_pct := midsprint_pct
  , adhoc_pct := adhoc_pct
  , kpi := kpi }

/-- `SprintCalculator.calculate_staff_metrics`: one metrics row per aggregate. -/
def calculate_staff_metrics (w : KpiWeights) (staff_agg : List StaffAgg)
    (capacity_data : List CapacityRow) (azure_data : List AzureRow) : List StaffMetrics :=
  staff_agg.map (staffMetricsRow w capacity_data azure_data)

/-- One output row of `calculate_team_metrics`. -/
structure TeamMetrics where
  team : String
  original_estimate : ℚ
  completed_work : ℚ
  remaining_work : ℚ
  capacity : ℚ
  done_count : ℕ
  total_count : ℕ
  performance_rate : ℚ
  utilization : ℚ
  done_tasks_pct : ℚ
  midsprint_addition_pct : ℚ
  adhoc_pct : ℚ
  kpi : ℚ
deriving DecidableEq

/-- The loop body of `calculate_team_metrics` for one team aggregate: team
capacity is the sum of `remaining_capacity` over the capacity rows with this
exact team name; tagged work is summed over the rows with this team. -/
def teamMetricsRow (w : KpiWeights) (capacity_data : List CapacityRow)
    (azure_data : List AzureRow) (team : TeamAgg) : TeamMetrics :=
  let team_capacity : ℚ :=
    ((capacity_data.filter (fun c => decide (c.team = team.team))).map
      (fun c => c.remaining_capacity)).sum
  let team_tasks := azure_data.filter (fun r => decide (r.team = some team.team))
  let midsprint_work :=
    ((team_tasks.filter (fun r => r.has_midsprint_addition)).map (fun r => r.completed_work)).sum
  let adhoc_work :=
    ((team_tasks.filter (fun r => r.has_adhoc)).map (fun r => r.completed_work)).sum
  let performance_rate := calculate_performance_rate team.original_estimate_total
    team.completed_work_total team.remaining_work_total
  let utilization := calculate_utilization team.completed_work_total team_capacity
  let done_tasks_pct := calculate_done_tasks_percentage team.done_count team.total_count
  let midsprint_pct := calculate_midsprint_addition_percentage midsprint_work
    team.completed_work_total
  let adhoc_pct := calculate_adhoc_percentage adhoc_work team.completed_work_total
  let kpi := calculate_kpi w performance_rate utilization done_tasks_pct
  { team := team.team
  , original_estimate := team.original_estimate_total
  , completed_work := team.completed_work_total
  , remaining_work := team.remaining_work_total
  , capacity := team_capacity
  , done_count := team.done_count
  , total_count := team.total_count
  , performance_rate := performance_rate
  , utilization := utilization
  , done_tasks_pct := done_tasks_pct
  , midsprint_addition_pct := midsprint_pct
  , adhoc_pct := adhoc_pct
  , kpi := kpi }

/-- `SprintCalculator.calculate_team_metrics`: one metrics row per aggregate. -/
def calculate_team_metrics (w : KpiWeights) (team_agg : List TeamAgg)
    (capacity_data : List CapacityRow) (azure_data : List AzureRow) : List TeamMetrics :=
  team_agg.map (teamMetricsRow w capacity_data azure_data)

/-! ### Metric-anomaly validation (`calculator.py`, `validate_metrics`) -/

/-- One input row for `validate_metrics`: either a staff metrics row (with a
`staff_name`) or a team metrics row (`staff_name` absent, falling back to
`team` for the reference). -/
structure MetricsRow where
  staff_name : Option String
  team : Option String
  utilization : ℚ
  performance_rate : ℚ
  kpi : ℚ
deriving DecidableEq

/-- `row.get('staff_name', row.get('team'))` of the warning entries. -/
def metricsRowRef (r : MetricsRow) : Option String :=
  match r.staff_name with
  | some n => some n
  | none => r.team

/-- One structured warning of `validate_metrics` (without the display text). -/
structure MetricWarning where
  wtype : String
  wref : Option String
  value : ℚ
deriving DecidableEq

/-- The dict returned by `validate_metrics`. -/
structure MetricsReport where
  status : String
  warnings : List MetricWarning
deriving DecidableEq

/-- `SprintCalculator.validate_metrics`: one warning per row with
`utilization > 1.5`, one per row with `performance_rate < 0.5`, one per row
with `kpi < 0.3` or `kpi > 1.5`; status is `warning` when any warning was
collected, else `success`. -/
def validate_metrics (metrics : List MetricsRow) : MetricsReport :=
  let highUtil := (metrics.filter (fun r => decide ((1.5 : ℚ) < r.utilization))).map
    (fun r => { wtype := "high_utilization", wref := metricsRowRef r, value := r.utilization })
  let lowPerf := (metrics.filter (fun r => decide (r.performance_rate < (0.5 : ℚ)))).map
    (fun r => { wtype := "low_performance_rate", wref := metricsRowRef r
              , value := r.performance_rate })
  let kpiOutliers := (metrics.filter
      (fun r => decide (r.kpi < (0.3 : ℚ) ∨ (1.5 : ℚ) < r.kpi))).map
    (fun r => { wtype := "kpi_outlier", wref := metricsRowRef r, value := r.kpi })
  let warnings := highUtil ++ lowPerf ++ kpiOutliers
  { status := if warnings = [] then "success" else "warning", warnings := warnings }

/-! ### Structural validation (`data_processor.py`, `validate_data`) -/

/-- One row of the processed frame as `validate_data` reads it. -/
structure ProcRow where
  assigned_to : Option String
  activity : Option String
  team : Option String
  completed_work : ℚ
  is_done : Bool
deriving DecidableEq

/-- The processed DataFrame handed to `validate_data`: its column names plus
its rows.  Indexing a column not in `columns` raises a pandas `KeyError`. -/
structure ProcessedFrame where
  columns : List String
  rows : List ProcRow
deriving DecidableEq

/-- One structured issue of `validate_data` (without the display text). -/
inductive DataIssue where
  | missing_columns (cols : List String)
  | missing_assignments (count : ℕ)
  | unmapped_activities (activities : List (Option String))
  | incomplete_tasks_with_work (count : ℕ)
deriving DecidableEq

/-- The dict returned by `validate_data`. -/
structure DataReport where
  status : String
  errors : List DataIssue
  warnings : List DataIssue
deriving DecidableEq

/-- The required-column list of `validate_data`. -/
def requiredCols : List String :=
  ["Work Item Type", "Title", "State", "Assigned To",
   "Original Estimate", "Completed Work", "Activity"]

/-- `SprintDataProcessor.validate_data`.  Status starts `success`, becomes
`error` when required columns are missing, and is never downgraded by the
warning checks.  After the missing-column check the function indexes the
`Assigned To`, `team`, `Activity` (only under a non-empty unmapped set),
`Completed Work` and `is_done` columns unconditionally, in that order; a
missing one raises `KeyError`, modelled as `Except.error`. -/
def validate_data (df : ProcessedFrame) : Except String DataReport :=
  let missing := requiredCols.filter (fun c => decide (c ∉ df.columns))
  let status := if missing = [] then "success" else "error"
  let errors : List DataIssue :=
    if missing = [] then [] else [DataIssue.missing_columns missing]
  if "Assigned To" ∈ df.columns then
    let naCount := (df.rows.filter (fun r => decide (r.assigned_to = none))).length
    let w1 : List DataIssue :=
      if 0 < naCount then [DataIssue.missing_assignments naCount] else []
    if "team" ∈ df.columns then
      let unmapped := df.rows.filter (fun r => decide (r.team = none))
      if unmapped ≠ [] ∧ "Activity" ∉ df.columns then Except.error "KeyError: Activity"
      else
        let w2 : List DataIssue :=
          if unmapped = [] then []
          else [DataIssue.unmapped_activities (dedupFirst (unmapped.map (fun r => r.activity)))]
        if "Completed Work" ∈ df.columns then
          if "is_done" ∈ df.columns then
            let incomplete :=
              df.rows.filter (fun r => decide (0 < r.completed_work ∧ r.is_done = false))
            let w3 : List DataIssue :=
              if 0 < incomplete.length
              then [DataIssue.incomplete_tasks_with_work incomplete.length] else []
            Except.ok { status := status, errors := errors, warnings := w1 ++ w2 ++ w3 }
          else Except.error "KeyError: is_done"
        else Except.error "KeyError: Completed Work"
    else Except.error "KeyError: team"
  else Except.error "KeyError: Assigned To"

/-! ### Identity extraction (`process_azure_data`, lines 69-70)

`df['Assigned To'].str.extract(r'<(.+?)>')` and
`df['Assigned To'].str.extract(r'^(.+?)\s*<')` are modelled operationally on
character lists, following Python regex semantics: a search scans left to
right, `.` matches any character except a newline, `.+?` is non-greedy, and
`\s` matches whitespace (ASCII whitespace here). -/

/-- Does the input begin with `\s*<`, i.e. optional whitespace then a `<`? -/
def wsThenLt : List Char → Bool
  | [] => false
  | c :: rest => if c = '<' then true else if c.isWhitespace then wsThenLt rest else false

/-- Matching `^(.+?)\s*<`: consume at least one non-newline character, stopping
as early as possible once the remainder begins with `\s*<`; the capture is the
consumed prefix. -/
def nameScan : List Char → Option (List Char)
  | [] => none
  | c :: rest =>
    if c = '\n' then none
    else if wsThenLt rest then some [c]
    else (nameScan rest).map (fun l => c :: l)

/-- Matching `(.+?)>` with `c` as the first captured character: extend the
non-greedy capture until the next character is `>`. -/
def angleScan (c : Char) : List Char → Option (List Char)
  | [] => none
  | d :: rest =>
    if d = '>' then some [c]
    else if d = '\n' then none
    else (angleScan d rest).map (fun l => c :: l)

/-- Matching `(.+?)>` right after a `<`: at least one non-newline character,
closed by the first following `>`. -/
def matchAngle : List Char → Option (List Char)
  | [] => none
  | c :: rest => if c = '\n' then none else angleScan c rest

/-- Searching for `<(.+?)>` anywhere: the match starting at the leftmost
feasible `<` wins. -/
def emailScan : List Char → Option (List Char)
  | [] => none
  | c :: rest =>
    if c = '<' then
      match matchAngle rest with
      | some content => some content
      | none => emailScan rest
    else emailScan rest

/-- `df['Assigned To'].str.extract(r'^(.+?)\s*<')[0]` on one cell. -/
def extractName (s : String) : Option String :=
  (nameScan s.data).map (fun l => String.mk l)

/-- `df['Assigned To'].str.extract(r'<(.+?)>')[0]` on one cell. -/
def extractEmail (s : String) : Option String :=
  (emailScan s.data).map (fun l => String.mk l)

/-! ### The record normalizer (`process_azure_data`, remaining columns) -/

/-- One raw Azure DevOps row as read from the sheet; `none` is a NaN cell and,
for the numeric fields, also a value `pd.to_numeric(..., errors='coerce')`
fails to parse. -/
structure RawRow where
  assigned_to : Option String
  activity : Option String
  tags : Option String
  state : Option String
  original_estimate : Option ℚ
  completed_work : Option ℚ
  remaining_work : Option ℚ

/-- The fixed activity-to-team mapping of `SprintDataProcessor.__init__`. -/
def team_mapping : List (String × String) :=
  [("Development", "Development"), ("Front End", "Frontend"), ("Design", "Design"),
   ("Testing", "Testing"), ("Business", "Business")]

/-- Case-insensitive substring containment, as
`Series.str.contains(pat, case=False)` on the literal patterns used. -/
def containsCI (hay pat : String) : Bool :=
  decide (pat.toLower.data <:+: hay.toLower.data)

/-- The per-row content of `process_azure_data`: identity extraction, the
activity-to-team mapping, tag flags over `Tags.fillna('')`, numeric coercion
with zero fallback, and the `Done`/`Closed` completion test. -/
def processRow (raw : RawRow) : AzureRow :=
  { staff_email := raw.assigned_to.bind (fun s => extractEmail s)
  , staff_name := raw.assigned_to.bind (fun s => extractName s)
  , team := raw.activity.bind
      (fun a => (team_mapping.find? (fun p => decide (p.1 = a))).map (fun p => p.2))
  , original_estimate := raw.original_estimate.getD 0
  , completed_work := raw.completed_work.getD 0
  , remaining_work := raw.remaining_work.getD 0
  , is_done := decide (raw.state = some "Done" ∨ raw.state = some "Closed")
  , has_midsprint_addition := containsCI (raw.tags.getD "") "MidSprint_Addition"
  , has_adhoc := containsCI (raw.tags.getD "") "Ad-hoc" }

/-! ### Claim-worded variants

These definitions follow the words of the spec/claims (not the source); they
exist to be compared with the embedded source behaviour. -/

/-- The characters before the first `>` of the input, `none` when it has no
`>`.  Used by the claim-worded last-pair split. -/
def gtSplit : List Char → Option (List Char)
  | [] => none
  | c :: rest => if c = '>' then some [] else (gtSplit rest).map (fun l => c :: l)

/-- Modelled from the claim's words: split a combined string at the last
`<`...`>` pair, returning (characters before that `<`, characters inside the
brackets). -/
def lastPairSplit : List Char → Option (List Char × List Char)
  | [] => none
  | c :: rest =>
    match lastPairSplit rest with
    | some (nm, em) => some (c :: nm, em)
    | none =>
      if c = '<' then
        match gtSplit rest with
        | some em => some (([] : List Char), em)
        | none => none
      else none

/-- Whitespace stripped from both ends of a character list. -/
def trimChars (l : List Char) : List Char :=
  ((l.dropWhile Char.isWhitespace).reverse.dropWhile Char.isWhitespace).reverse

/-- The claim's name extraction: the substring before the last `<`...`>` pair,
trimmed of surrounding whitespace. -/
def specNameLastPair (s : String) : Option String :=
  (lastPairSplit s.data).map (fun p => String.mk (trimChars p.1))

/-- The claim's email extraction: the substring inside the last pair. -/
def specEmailLastPair (s : String) : Option String :=
  (lastPairSplit s.data).map (fun p => String.mk p.2)

/-- Modelled from the claim's words for `midsprint_addition_pct` of one staff
group: completed work summed over the WorkItems *of that group* (all three key
components matching) that carry the midsprint flag, divided by the group's
completed work total (0 on zero). -/
def specStaffMidsprintPct (azure_data : List AzureRow) (staff : StaffAgg) : ℚ :=
  let members := azure_data.filter (fun r => decide (staffKey r =
    some { email := staff.staff_email, name := staff.staff_name, team := staff.team }))
  calculate_midsprint_addition_percentage
    ((members.filter (fun r => r.has_midsprint_addition)).map (fun r => r.completed_work)).sum
    staff.completed_work_total

/-! ### Helper lemmas on lists -/

/-- Every element of `dedupFirst l` is an element of `l` and conversely. -/
theorem mem_dedupFirst [DecidableEq α] (a : α) (l : List α) :
    a ∈ dedupFirst l ↔ a ∈ l := by
  induction l with
  | nil => simp [dedupFirst]
  | cons b l ih =>
    by_cases hab : a = b
    · subst hab; simp [dedupFirst]
    · simp [dedupFirst, List.mem_filter, hab, ih]

/-- `dedupFirst` never repeats an element. -/
theorem nodup_dedupFirst [DecidableEq α] (l : List α) : (dedupFirst l).Nodup := by
  induction l with
  | nil => simp [dedupFirst]
  | cons b l ih =>
    refine List.Nodup.cons ?_ (List.Nodup.filter _ ih)
    intro hb
    rcases List.mem_filter.mp hb with ⟨-, hne⟩
    simp at hne

/-- Summing a pointwise-bumped function over a duplicate-free list containing
the bumped key adds exactly one. -/
theorem sum_map_bump [DecidableEq κ] (ks : List κ) (g : κ → ℕ) (k0 : κ)
    (hnd : ks.Nodup) (hk : k0 ∈ ks) :
    (ks.map (fun k => if k0 = k then g k + 1 else g k)).sum = (ks.map g).sum + 1 := by
  induction ks with
  | nil => cases hk
  | cons k ks ih =>
    rcases List.nodup_cons.mp hnd with ⟨hknot, hnd2⟩
    by_cases hek : k0 = k
    · subst hek
      have hmap : ks.map (fun k => if k0 = k then g k + 1 else g k) = ks.map g := by
        apply List.map_congr_left
        intro a ha
        have : k0 ≠ a := fun h => hknot (h ▸ ha)
        simp [this]
      simp [hmap]
      omega
    · have hk2 : k0 ∈ ks := by
        rcases List.mem_cons.mp hk with h | h
        · exact absurd h hek
        · exact h
      simp [hek, ih hnd2 hk2]
      omega

/-- Grouping as a partition of counts: for any key list that is duplicate-free
and covers every key the rows realise, the group sizes sum to the number of
rows with a key. -/
theorem sum_group_sizes [DecidableEq κ] (f : α → Option κ) (l : List α) (ks : List κ)
    (hnd : ks.Nodup) (hall : ∀ a ∈ l, ∀ k, f a = some k → k ∈ ks) :
    (ks.map (fun k => (l.filter (fun a => decide (f a = some k))).length)).sum =
      (l.filterMap f).length := by
  induction l with
  | nil => simp
  | cons a l ih =>
    have hall2 : ∀ b ∈ l, ∀ k, f b = some k → k ∈ ks :=
      fun b hb => hall b (List.mem_cons_of_mem a hb)
    cases hfa : f a with
    | none =>
      have hmap : ks.map (fun k => ((a :: l).filter (fun b => decide (f b = some k))).length)
          = ks.map (fun k => (l.filter (fun b => decide (f b = some k))).length) := by
        apply List.map_congr_left
        intro k _
        simp [List.filter_cons, hfa]
      rw [hmap, List.filterMap_cons_none hfa]
      exact ih hall2
    | some k0 =>
      have hk0 : k0 ∈ ks := hall a (List.mem_cons_self a l) k0 hfa
      have hmap : ks.map (fun k => ((a :: l).filter (fun b => decide (f b = some k))).length)
          = ks.map (fun k =>
              if k0 = k then (l.filter (fun b => decide (f b = some k))).length + 1
              else (l.filter (fun b => decide (f b = some k))).length) := by
        apply List.map_congr_left
        intro k _
        by_cases hke : k0 = k
        · subst hke; simp [List.filter_cons, hfa]
        · have : ¬ (f a = some k) := by rw [hfa]; simp [hke]
          simp [List.filter_cons, hfa, hke]
      rw [hmap, sum_map_bump ks _ k0 hnd hk0, List.filterMap_cons_some hfa]
      simp [ih hall2]

/-- Two key extractors that succeed on the same rows give equally many keys. -/
theorem length_filterMap_congr (f : α → Option κ) (g : α → Option μ) (l : List α)
    (h : ∀ a ∈ l, (f a).isSome = (g a).isSome) :
    (l.filterMap f).length = (l.filterMap g).length := by
  induction l with
  | nil => simp
  | cons a l ih =>
    have ha := h a (List.mem_cons_self a l)
    have h2 : ∀ b ∈ l, (f b).isSome = (g b).isSome :=
      fun b hb => h b (List.mem_cons_of_mem a hb)
    cases hfa : f a with
    | none =>
      cases hga : g a with
      | none => rw [List.filterMap_cons_none hfa, List.filterMap_cons_none hga]; exact ih h2
      | some y => rw [hfa, hga] at ha; simp at ha
    | some x =>
      cases hga : g a with
      | none => rw [hfa, hga] at ha; simp at ha
      | some y =>
        rw [List.filterMap_cons_some hfa, List.filterMap_cons_some hga]
        simp [ih h2]

/-! ### Lemmas about the regex scans -/

/-- `\s*<` matches at the head of a whitespace run followed by `<`. -/
theorem wsThenLt_ws (ws : List Char) (r : List Char)
    (hws : ∀ w ∈ ws, w.isWhitespace = true) : wsThenLt (ws ++ '<' :: r) = true := by
  induction ws with
  | nil => simp [wsThenLt]
  | cons w ws ih =>
    have hw := hws w (List.mem_cons_self w ws)
    have ih2 := ih (fun x hx => hws x (List.mem_cons_of_mem w hx))
    by_cases hlt : w = '<'
    · simp [wsThenLt, hlt]
    · simp [wsThenLt, hlt, hw, ih2]

/-- `\s*<` fails when the scanned text reaches a non-whitespace,
non-`<` character first. -/
theorem wsThenLt_stuck (q r : List Char) (hq : '<' ∉ q)
    (hnw : ¬ ∀ w ∈ q, w.isWhitespace = true) : wsThenLt (q ++ r) = false := by
  induction q with
  | nil => exact absurd (by simp) hnw
  | cons c q ih =>
    have hc : c ≠ '<' := fun h => hq (h ▸ List.mem_cons_self c q)
    have hq2 : '<' ∉ q := fun h => hq (List.mem_cons_of_mem c h)
    cases hcw : c.isWhitespace with
    | false => simp [wsThenLt, hc, hcw]
    | true =>
      have hnw2 : ¬ ∀ w ∈ q, w.isWhitespace = true := by
        intro hall
        exact hnw (by
          intro w hw
          rcases List.mem_cons.mp hw with h | h
          · exact h ▸ hcw
          · exact hall w h)
      simp [wsThenLt, hc, hcw, ih hq2 hnw2]

/-- `\s*<` fails on text containing no `<` at all. -/
theorem wsThenLt_no_lt (q : List Char) (hq : '<' ∉ q) : wsThenLt q = false := by
  induction q with
  | nil => rfl
  | cons c q ih =>
    have hc : c ≠ '<' := fun h => hq (h ▸ List.mem_cons_self c q)
    have hq2 : '<' ∉ q := fun h => hq (List.mem_cons_of_mem c h)
    cases hcw : c.isWhitespace with
    | false => simp [wsThenLt, hc, hcw]
    | true => simp [wsThenLt, hc, hcw, ih hq2]

/-- The name capture of `^(.+?)\s*<` on `name ++ whitespace ++ '<' ++ rest` is
exactly `name`, provided `name` has no `<` or newline and does not end in
whitespace. -/
theorem nameScan_pattern (n0 : List Char) (c : Char) (ws r : List Char)
    (hlt : '<' ∉ n0 ++ [c]) (hnl : '\n' ∉ n0 ++ [c]) (hcw : c.isWhitespace = false)
    (hws : ∀ w ∈ ws, w.isWhitespace = true) :
    nameScan ((n0 ++ [c]) ++ ws ++ '<' :: r) = some (n0 ++ [c]) := by
  induction n0 with
  | nil =>
    have hc : c ≠ '\n' := fun h => hnl (by simp [h])
    simp [nameScan, hc, wsThenLt_ws ws r hws]
  | cons d n0 ih =>
    have hd : d ≠ '\n' := fun h => hnl (by simp [h])
    have hlt2 : '<' ∉ n0 ++ [c] := by
      intro h
      exact hlt (by simpa using Or.inr (by simpa using h))
    have hnl2 : '\n' ∉ n0 ++ [c] := by
      intro h
      exact hnl (by simpa using Or.inr (by simpa using h))
    have hstuck : wsThenLt ((n0 ++ [c] ++ ws) ++ '<' :: r) = false := by
      apply wsThenLt_stuck
      · intro h
        rcases List.mem_append.mp h with h2 | h2
        · exact hlt2 h2
        · have := hws _ h2
          simp at this
      · intro hall
        have := hall c (by simp)
        rw [hcw] at this
        exact Bool.false_ne_true this
    have harr : (d :: n0 ++ [c]) ++ ws ++ '<' :: r
        = d :: ((n0 ++ [c]) ++ ws ++ '<' :: r) := by simp
    rw [harr]
    have harr2 : (n0 ++ [c]) ++ ws ++ '<' :: r = (n0 ++ [c] ++ ws) ++ '<' :: r := by simp
    simp only [nameScan, hd, if_false, harr2, hstuck]
    rw [← harr2, ih hlt2 hnl2]
    simp

/-- `nameScan` fails on text containing no `<`. -/
theorem nameScan_no_lt (s : List Char) (hs : '<' ∉ s) : nameScan s = none := by
  induction s with
  | nil => rfl
  | cons c s ih =>
    have hs2 : '<' ∉ s := fun h => hs (List.mem_cons_of_mem c h)
    by_cases hc : c = '\n'
    · simp [nameScan, hc]
    · simp [nameScan, hc, wsThenLt_no_lt s hs2, ih hs2]

/-- The non-greedy capture after a `<` stops at the first following `>`. -/
theorem angleScan_pattern (c : Char) (e t : List Char)
    (hgt : '>' ∉ e) (hnl : '\n' ∉ e) :
    angleScan c (e ++ '>' :: t) = some (c :: e) := by
  induction e generalizing c with
  | nil => simp [angleScan]
  | cons d e ih =>
    have hd : d ≠ '>' := fun h => hgt (h ▸ List.mem_cons_self d e)
    have hdn : d ≠ '\n' := fun h => hnl (h ▸ List.mem_cons_self d e)
    have hgt2 : '>' ∉ e := fun h => hgt (List.mem_cons_of_mem d h)
    have hnl2 : '\n' ∉ e := fun h => hnl (List.mem_cons_of_mem d h)
    simp [angleScan, hd, hdn, ih d hgt2 hnl2]

/-- The search for `<(.+?)>` skips any prefix without a `<`. -/
theorem emailScan_skip (p r : List Char) (hp : '<' ∉ p) :
    emailScan (p ++ r) = emailScan r := by
  induction p with
  | nil => rfl
  | cons c p ih =>
    have hc : c ≠ '<' := fun h => hp (h ▸ List.mem_cons_self c p)
    have hp2 : '<' ∉ p := fun h => hp (List.mem_cons_of_mem c h)
    simp [emailScan, hc, ih hp2]

/-- `emailScan` fails on text containing no `<`. -/
theorem emailScan_no_lt (s : List Char) (hs : '<' ∉ s) : emailScan s = none := by
  have := emailScan_skip s [] hs
  simpa using this

/-- The email capture of `<(.+?)>` on `prefix ++ '<' ++ email ++ '>' ++ rest`
is exactly `email`, when the prefix has no `<` and the email part is non-empty
with no `>` or newline. -/
theorem emailScan_pattern (p : List Char) (c : Char) (e t : List Char)
    (hp : '<' ∉ p) (hc : c ≠ '\n') (hgt : '>' ∉ e) (hnl : '\n' ∉ e) :
    emailScan (p ++ ('<' :: (c :: (e ++ ('>' :: t))))) = some (c :: e) := by
  rw [emailScan_skip p _ hp]
  simp [emailScan, matchAngle, hc, angleScan_pattern c e t hgt hnl]

/-! ### Claim theorems -/

/-- C1: each of the five ratio functions is total, returns a non-negative value
on non-negative inputs, and returns exactly 0 when its denominator
(`completed + remaining`, `capacity`, `total_count`, `total_work`) is 0.
Totality (no exception) holds by construction: each is a total Lean function. -/
theorem claim_C1_theorem (oe cw rw cap mw aw tw : ℚ) (dc tc : ℕ)
    (h1 : 0 ≤ oe) (h2 : 0 ≤ cw) (h3 : 0 ≤ rw) (h4 : 0 ≤ cap)
    (h5 : 0 ≤ mw) (h6 : 0 ≤ aw) (h7 : 0 ≤ tw) :
    (0 ≤ calculate_performance_rate oe cw rw
      ∧ (cw + rw = 0 → calculate_performance_rate oe cw rw = 0))
    ∧ (0 ≤ calculate_utilization cw cap ∧ (cap = 0 → calculate_utilization cw cap = 0))
    ∧ (0 ≤ calculate_done_tasks_percentage dc tc
      ∧ (tc = 0 → calculate_done_tasks_percentage dc tc = 0))
    ∧ (0 ≤ calculate_midsprint_addition_percentage mw tw
      ∧ (tw = 0 → calculate_midsprint_addition_percentage mw tw = 0))
    ∧ (0 ≤ calculate_adhoc_percentage aw tw
      ∧ (tw = 0 → calculate_adhoc_percentage aw tw = 0)) := by
  refine ⟨⟨?_, fun h => by simp [calculate_performance_rate, h]⟩,
    ⟨?_, fun h => by simp [calculate_utilization, h]⟩,
    ⟨?_, fun h => by simp [calculate_done_tasks_percentage, h]⟩,
    ⟨?_, fun h => by simp [calculate_midsprint_addition_percentage, h]⟩,
    ⟨?_, fun h => by simp [calculate_adhoc_percentage, h]⟩⟩
  · unfold calculate_performance_rate
    split
    · exact le_rfl
    · exact div_nonneg h1 (add_nonneg h2 h3)
  · unfold calculate_utilization
    split
    · exact le_rfl
    · exact div_nonneg h2 h4
  · unfold calculate_done_tasks_percentage
    split
    · exact le_rfl
    · exact div_nonneg (Nat.cast_nonneg dc) (Nat.cast_nonneg tc)
  · unfold calculate_midsprint_addition_percentage
    split
    · exact le_rfl
    · exact div_nonneg h5 h7
  · unfold calculate_adhoc_percentage
    split
    · exact le_rfl
    · exact div_nonneg h6 h7

/-- Witness for C1 at the concrete input (89, 64, 1, 63, 3, 4, 10; 10 of 10 tasks). -/
theorem claim_C1_witness : 0 ≤ calculate_performance_rate 89 64 1 :=
  (claim_C1_theorem 89 64 1 63 3 4 10 10 10 (by norm_num) (by norm_num) (by norm_num)
    (by norm_num) (by norm_num) (by norm_num) (by norm_num)).1.1

/-- A staff aggregate whose identity matches no capacity row below. -/
def exStaffAgg : StaffAgg :=
  { staff_email := "a@x", staff_name := "Alice", team := "Development"
  , original_estimate_total := 10, completed_work_total := 6, remaining_work_total := 2
  , done_count := 1, total_count := 2, midsprint_count := 0, adhoc_count := 0 }

/-- A team aggregate for the witnesses. -/
def exTeamAgg : TeamAgg :=
  { team := "Frontend"
  , original_estimate_total := 10, completed_work_total := 6, remaining_work_total := 2
  , done_count := 1, total_count := 2, midsprint_count := 0, adhoc_count := 0 }

/-- A capacity row naming somebody else. -/
def exCapRow : CapacityRow :=
  { staff_member := "Bob <b@x>", team := "Development", remaining_capacity := 40 }

/-- C2: when no capacity row equals the identity string `name <email>` of a
staff aggregate, the reported capacity is exactly the default 63 and the
utilization ratio is computed against 63; a team's capacity is the sum of
`remaining_capacity` over the capacity rows whose team equals the team name. -/
theorem claim_C2_theorem (w : KpiWeights) (cap : List CapacityRow) (az : List AzureRow)
    (s : StaffAgg) (t : TeamAgg)
    (h : ∀ c ∈ cap, c.staff_member ≠ s.staff_name ++ " <" ++ s.staff_email ++ ">") :
    (staffMetricsRow w cap az s).capacity = 63
    ∧ (staffMetricsRow w cap az s).utilization
        = calculate_utilization s.completed_work_total 63
    ∧ (teamMetricsRow w cap az t).capacity
        = ((cap.filter (fun c => decide (c.team = t.team))).map
            (fun c => c.remaining_capacity)).sum := by
  have hfind : cap.find? (fun c => decide
      (c.staff_member = s.staff_name ++ " <" ++ s.staff_email ++ ">")) = none := by
    rw [List.find?_eq_none]
    intro c hc
    simp [h c hc]
  refine ⟨?_, ?_, rfl⟩ <;> simp [staffMetricsRow, hfind]

/-- Witness for C2: the lookup misses and the default 63 is used. -/
theorem claim_C2_witness :
    (staffMetricsRow defaultKpiWeights [exCapRow] [] exStaffAgg).capacity = 63 :=
  (claim_C2_theorem defaultKpiWeights [exCapRow] [] exStaffAgg exTeamAgg (by decide)).1

/-- A processed frame with every required column present and one row whose
assignee is null: `validate_data` records a warning but keeps status
`success`. -/
def c3Frame : ProcessedFrame :=
  { columns := ["Work Item Type", "Title", "State", "Assigned To",
                "Original Estimate", "Completed Work", "Activity", "team", "is_done"]
  , rows := [{ assigned_to := none, activity := some "Development"
             , team := some "Development", completed_work := 0, is_done := false }] }

/-- C3 (amended): `validate_metrics` reports `warning` exactly when a warning
was recorded and `success` otherwise (never `error`); `validate_data`, when it
returns at all, reports `error` exactly when a required column was missing and
`success` otherwise — warnings never change its status. -/
theorem claim_C3_theorem (ms : List MetricsRow) (df : ProcessedFrame) (rep : DataReport)
    (h : validate_data df = Except.ok rep) :
    ((validate_metrics ms).status = "warning" ↔ (validate_metrics ms).warnings ≠ [])
    ∧ ((validate_metrics ms).status = "success" ↔ (validate_metrics ms).warnings = [])
    ∧ (validate_metrics ms).status ≠ "error"
    ∧ (rep.status = "error" ↔ rep.errors ≠ [])
    ∧ (rep.status = "success" ↔ rep.errors = []) := by
  have hsw : ("success" : String) ≠ "warning" := by decide
  have hwe : ("warning" : String) ≠ "error" := by decide
  have hse : ("success" : String) ≠ "error" := by decide
  have hvm : (validate_metrics ms).status
      = (if (validate_metrics ms).warnings = [] then "success" else "warning") := rfl
  refine ⟨?_, ?_, ?_, ?_⟩
  · rw [hvm]
    by_cases hw : (validate_metrics ms).warnings = [] <;> simp [hw, hsw]
  · rw [hvm]
    by_cases hw : (validate_metrics ms).warnings = [] <;> simp [hw, hsw.symm]
  · rw [hvm]
    by_cases hw : (validate_metrics ms).warnings = [] <;> simp [hw, hse, hwe]
  · simp only [validate_data] at h
    split at h
    · split at h
      · split at h
        · exact absurd h (by simp)
        · split at h
          · split at h
            · simp only [Except.ok.injEq] at h
              subst h
              by_cases hm : requiredCols.filter (fun c => decide (c ∉ df.columns)) = []
              · constructor
                · simp [hm, hse]
                · simp [hm]
              · constructor
                · simp [hm]
                · simp [hm, hse.symm]
            · exact absurd h (by simp)
          · exact absurd h (by simp)
      · exact absurd h (by simp)
    · exact absurd h (by simp)

/-- Witness for C3 at a concrete table and frame. -/
theorem claim_C3_witness :
    (validate_metrics ([] : List MetricsRow)).status ≠ "error" :=
  (claim_C3_theorem [] c3Frame
    { status := "success", errors := [], warnings := [DataIssue.missing_assignments 1] }
    (by rfl)).2.2.1

/-- Counterexample to C3 as stated: on `c3Frame` the structural validator
records a (non-fatal) missing-assignee warning and no error, yet its status is
`success`, not `warning`. -/
theorem claim_C3_counterexample :
    (validate_data c3Frame).toOption.map
      (fun r => (r.status, r.errors, r.warnings)) =
      some ("success", [], [DataIssue.missing_assignments 1]) := by
  rfl

/-- C4: a metrics row produces a `high_utilization` warning exactly when its
utilization exceeds 1.5 (1.51 is flagged, 1.49 and exactly 1.5 are not), a
`low_performance_rate` warning exactly when its performance rate is below 0.5,
and a `kpi_outlier` warning exactly when its kpi leaves the closed interval
[0.3, 1.5]; the warning list is exactly one entry per offending row per
check. -/
theorem claim_C4_theorem (ms : List MetricsRow) :
    ((validate_metrics ms).warnings =
      ((ms.filter (fun r => decide ((1.5 : ℚ) < r.utilization))).map
        (fun r => { wtype := "high_utilization", wref := metricsRowRef r
                  , value := r.utilization }))
      ++ ((ms.filter (fun r => decide (r.performance_rate < (0.5 : ℚ)))).map
        (fun r => { wtype := "low_performance_rate", wref := metricsRowRef r
                  , value := r.performance_rate }))
      ++ ((ms.filter (fun r => decide (r.kpi < (0.3 : ℚ) ∨ (1.5 : ℚ) < r.kpi))).map
        (fun r => { wtype := "kpi_outlier", wref := metricsRowRef r, value := r.kpi })))
    ∧ (∀ r ∈ ms, ((1.5 : ℚ) < r.utilization ↔
        ({ wtype := "high_utilization", wref := metricsRowRef r, value := r.utilization }
          : MetricWarning) ∈ (validate_metrics ms).warnings))
    ∧ (∀ r ∈ ms, (r.performance_rate < (0.5 : ℚ) ↔
        ({ wtype := "low_performance_rate", wref := metricsRowRef r
         , value := r.performance_rate }
          : MetricWarning) ∈ (validate_metrics ms).warnings))
    ∧ (∀ r ∈ ms, ((r.kpi < (0.3 : ℚ) ∨ (1.5 : ℚ) < r.kpi) ↔
        ({ wtype := "kpi_outlier", wref := metricsRowRef r, value := r.kpi }
          : MetricWarning) ∈ (validate_metrics ms).warnings))
    ∧ (validate_metrics
        [{ staff_name := some "S", team := none
         , utilization := 1.51, performance_rate := 1, kpi := 1 }]).warnings.length = 1
    ∧ (validate_metrics
        [{ staff_name := some "S", team := none
         , utilization := 1.49, performance_rate := 1, kpi := 1 },
         { staff_name := some "S", team := none
         , utilization := 1.5, performance_rate := 1, kpi := 1 }]).warnings = [] := by
  have hA : (validate_metrics ms).warnings =
      ((ms.filter (fun r => decide ((1.5 : ℚ) < r.utilization))).map
        (fun r => { wtype := "high_utilization", wref := metricsRowRef r
                  , value := r.utilization }))
      ++ ((ms.filter (fun r => decide (r.performance_rate < (0.5 : ℚ)))).map
        (fun r => { wtype := "low_performance_rate", wref := metricsRowRef r
                  , value := r.performance_rate }))
      ++ ((ms.filter (fun r => decide (r.kpi < (0.3 : ℚ) ∨ (1.5 : ℚ) < r.kpi))).map
        (fun r => { wtype := "kpi_outlier", wref := metricsRowRef r
                  , value := r.kpi })) := rfl
  refine ⟨hA, ?_, ?_, ?_, ?_, ?_⟩
  · intro r hr
    rw [hA]
    constructor
    · intro hgt
      exact List.mem_append_left _ (List.mem_append_left _
        (List.mem_map_of_mem _ (List.mem_filter.mpr ⟨hr, decide_eq_true hgt⟩)))
    · intro hmem
      rcases List.mem_append.mp hmem with hmem | hmem
      · rcases List.mem_append.mp hmem with hmem | hmem
        · rcases List.mem_map.mp hmem with ⟨a, ha, heq⟩
          rcases List.mem_filter.mp ha with ⟨-, hcond⟩
          have hval : a.utilization = r.utilization := congrArg MetricWarning.value heq
          rw [← hval]
          exact of_decide_eq_true hcond
        · rcases List.mem_map.mp hmem with ⟨a, ha, heq⟩
          have hty := congrArg MetricWarning.wtype heq
          simp at hty
      · rcases List.mem_map.mp hmem with ⟨a, ha, heq⟩
        have hty := congrArg MetricWarning.wtype heq
        simp at hty
  · intro r hr
    rw [hA]
    constructor
    · intro hlt
      exact List.mem_append_left _ (List.mem_append_right _
        (List.mem_map_of_mem _ (List.mem_filter.mpr ⟨hr, decide_eq_true hlt⟩)))
    · intro hmem
      rcases List.mem_append.mp hmem with hmem | hmem
      · rcases List.mem_append.mp hmem with hmem | hmem
        · rcases List.mem_map.mp hmem with ⟨a, ha, heq⟩
          have hty := congrArg MetricWarning.wtype heq
          simp at hty
        · rcases List.mem_map.mp hmem with ⟨a, ha, heq⟩
          rcases List.mem_filter.mp ha with ⟨-, hcond⟩
          have hval : a.performance_rate = r.performance_rate :=
            congrArg MetricWarning.value heq
          rw [← hval]
          exact of_decide_eq_true hcond
      · rcases List.mem_map.mp hmem with ⟨a, ha, heq⟩
        have hty := congrArg MetricWarning.wtype heq
        simp at hty
  · intro r hr
    rw [hA]
    constructor
    · intro hout
      exact List.mem_append_right _
        (List.mem_map_of_mem _ (List.mem_filter.mpr ⟨hr, decide_eq_true hout⟩))
    · intro hmem
      rcases List.mem_append.mp hmem with hmem | hmem
      · rcases List.mem_append.mp hmem with hmem | hmem
        · rcases List.mem_map.mp hmem with ⟨a, ha, heq⟩
          have hty := congrArg MetricWarning.wtype heq
          simp at hty
        · rcases List.mem_map.mp hmem with ⟨a, ha, heq⟩
          have hty := congrArg MetricWarning.wtype heq
          simp at hty
      · rcases List.mem_map.mp hmem with ⟨a, ha, heq⟩
        rcases List.mem_filter.mp ha with ⟨-, hcond⟩
        have hval : a.kpi = r.kpi := congrArg MetricWarning.value heq
        rw [← hval]
        exact of_decide_eq_true hcond
  · norm_num [validate_metrics, metricsRowRef]
  · norm_num [validate_metrics, metricsRowRef]

/-- If the staff key of a row resolves, so does its team. -/
theorem staffKey_isSome_team (r : AzureRow) (hk : (staffKey r).isSome = true) :
    r.team.isSome = true := by
  unfold staffKey at hk
  cases he : r.staff_email <;> cases hn : r.staff_name <;> cases ht : r.team <;>
    rw [he, hn, ht] at hk <;> simp_all

/-- C5 (amended): for every row collection, the staff-group `total_count`s sum
to the number of rows whose full `(email, name, team)` key resolves, the
team-group `total_count`s sum to the number of rows whose team resolves, and
`done_count ≤ total_count` holds in every group of either aggregation; the two
sums agree whenever every row with a team also has a full staff key. -/
theorem claim_C5_theorem (rows : List AzureRow) :
    ((aggregate_by_staff rows).map (fun g => g.total_count)).sum
        = (rows.filterMap staffKey).length
    ∧ ((aggregate_by_team rows).map (fun g => g.total_count)).sum
        = (rows.filterMap (fun r => r.team)).length
    ∧ (∀ g ∈ aggregate_by_staff rows, g.done_count ≤ g.total_count)
    ∧ (∀ g ∈ aggregate_by_team rows, g.done_count ≤ g.total_count)
    ∧ ((∀ r ∈ rows, r.team.isSome = true → (staffKey r).isSome = true) →
        ((aggregate_by_staff rows).map (fun g => g.total_count)).sum
          = ((aggregate_by_team rows).map (fun g => g.total_count)).sum) := by
  have h1 : ((aggregate_by_staff rows).map (fun g => g.total_count)).sum
      = (rows.filterMap staffKey).length := by
    unfold aggregate_by_staff
    rw [List.map_map]
    exact sum_group_sizes staffKey rows _ (nodup_dedupFirst _)
      (fun a ha k hk => (mem_dedupFirst k _).mpr (List.mem_filterMap.mpr ⟨a, ha, hk⟩))
  have h2 : ((aggregate_by_team rows).map (fun g => g.total_count)).sum
      = (rows.filterMap (fun r => r.team)).length := by
    unfold aggregate_by_team
    rw [List.map_map]
    exact sum_group_sizes (fun r => r.team) rows _ (nodup_dedupFirst _)
      (fun a ha k hk => (mem_dedupFirst k _).mpr (List.mem_filterMap.mpr ⟨a, ha, hk⟩))
  refine ⟨h1, h2, ?_, ?_, ?_⟩
  · intro g hg
    unfold aggregate_by_staff at hg
    rcases List.mem_map.mp hg with ⟨k, -, hk⟩
    rw [← hk]
    exact List.length_filter_le _ _
  · intro g hg
    unfold aggregate_by_team at hg
    rcases List.mem_map.mp hg with ⟨k, -, hk⟩
    rw [← hk]
    exact List.length_filter_le _ _
  · intro h
    have hiff : ∀ a ∈ rows, (staffKey a).isSome = (a.team).isSome := by
      intro a ha
      cases hsk : (staffKey a).isSome with
      | true => exact (staffKey_isSome_team a hsk).symm
      | false =>
        cases hts : a.team.isSome with
        | true => exact absurd (h a ha hts) (by simp [hsk])
        | false => rfl
    rw [h1, h2]
    exact length_filterMap_congr staffKey (fun r => r.team) rows hiff

/-- A row with a fully resolvable identity. -/
def exFullRow : AzureRow :=
  { staff_email := some "a@x", staff_name := some "A", team := some "Development"
  , original_estimate := 0, completed_work := 0, remaining_work := 0
  , is_done := false, has_midsprint_addition := false, has_adhoc := false }

/-- Witness for C5: the conditional sum-equality clause exercised on a
one-row collection with a resolvable key. -/
theorem claim_C5_witness :
    ((aggregate_by_staff [exFullRow]).map (fun g => g.total_count)).sum
      = ((aggregate_by_team [exFullRow]).map (fun g => g.total_count)).sum :=
  (claim_C5_theorem [exFullRow]).2.2.2.2 (by decide)

/-- A row grouped by team but dropped from the staff grouping: its team
resolves while its assignee identity does not. -/
def c5Row : AzureRow :=
  { staff_email := none, staff_name := none, team := some "Development"
  , original_estimate := 0, completed_work := 0, remaining_work := 0
  , is_done := false, has_midsprint_addition := false, has_adhoc := false }

/-- Counterexample to C5 as stated: on `[c5Row]` the staff-group counts sum to
0 while the team-group counts sum to 1, so the two sums are not equal. -/
theorem claim_C5_counterexample :
    ((aggregate_by_staff [c5Row]).map (fun g => g.total_count)).sum = 0
    ∧ ((aggregate_by_team [c5Row]).map (fun g => g.total_count)).sum = 1 := by
  constructor <;> rfl

/-- C6 (amended): on a combined string of the shape
`name ++ whitespace ++ '<' ++ email ++ '>' ++ rest` (name non-empty with no
`<`/newline and not ending in whitespace, email non-empty with no `>`/newline),
the extraction captures as name the substring before the *first* bracket pair,
stripping only the whitespace immediately before the `<` (leading whitespace is
kept), and as email the shortest content of the first `<` closed by a `>`; a
string with no `<` at all yields absent name and email. -/
theorem claim_C6_theorem (n0 : List Char) (c : Char) (ws e t s : List Char) (e0 : Char)
    (hlt : '<' ∉ n0 ++ [c]) (hnl : '\n' ∉ n0 ++ [c]) (hcw : c.isWhitespace = false)
    (hws : ∀ w ∈ ws, w.isWhitespace = true)
    (he0 : e0 ≠ '\n') (hgt : '>' ∉ e) (henl : '\n' ∉ e)
    (hs : '<' ∉ s) :
    nameScan ((n0 ++ [c]) ++ ws ++ '<' :: (e0 :: (e ++ ('>' :: t)))) = some (n0 ++ [c])
    ∧ emailScan ((n0 ++ [c]) ++ ws ++ '<' :: (e0 :: (e ++ ('>' :: t)))) = some (e0 :: e)
    ∧ nameScan s = none ∧ emailScan s = none := by
  have hp : '<' ∉ (n0 ++ [c]) ++ ws := by
    intro hmem
    rcases List.mem_append.mp hmem with hmem | hmem
    · exact hlt hmem
    · have := hws _ hmem
      simp at this
  refine ⟨nameScan_pattern n0 c ws _ hlt hnl hcw hws, ?_,
    nameScan_no_lt s hs, emailScan_no_lt s hs⟩
  exact emailScan_pattern ((n0 ++ [c]) ++ ws) e0 e t hp he0 hgt henl

/-- Witness for C6 on the concrete combined string `Jo <j@>` and the
pattern-free string `nop`. -/
theorem claim_C6_witness :
    nameScan ((['J'] ++ ['o']) ++ [' '] ++ '<' :: ('j' :: (['@'] ++ ('>' :: []))))
        = some (['J'] ++ ['o'])
    ∧ emailScan ((['J'] ++ ['o']) ++ [' '] ++ '<' :: ('j' :: (['@'] ++ ('>' :: []))))
        = some ('j' :: ['@'])
    ∧ nameScan ['n', 'o', 'p'] = none ∧ emailScan ['n', 'o', 'p'] = none :=
  claim_C6_theorem ['J'] 'o' [' '] ['@'] [] ['n', 'o', 'p'] 'j'
    (by decide) (by decide) (by decide) (by decide) (by decide) (by decide) (by decide)
    (by decide)

/-- The combined string used to refute C6 as stated. -/
def c6Input : String := " A <b> <c>"

/-- Counterexample to C6 as stated: on `" A <b> <c>"` the code captures the
*first* pair (name `" A"` with its leading blank kept, email `"b"`), not the
last pair with surrounding trim (name `"A <b>"`, email `"c"`). -/
theorem claim_C6_counterexample :
    extractName c6Input = some " A" ∧ extractEmail c6Input = some "b"
    ∧ specNameLastPair c6Input = some "A <b>" ∧ specEmailLastPair c6Input = some "c"
    ∧ extractName c6Input ≠ specNameLastPair c6Input
    ∧ extractEmail c6Input ≠ specEmailLastPair c6Input := by
  refine ⟨?_, ?_, ?_, ?_, ?_, ?_⟩ <;> decide

/-- C7 (amended): in the staff metrics the midsprint/ad-hoc numerators are
completed work summed over the rows whose `staff_email` alone equals the
group's email (name and team are not consulted, so rows of a different group
sharing the email are included); in the team metrics they are summed over the
rows whose team equals the group's team; each percentage is 0 when the group's
completed work total is 0. -/
theorem claim_C7_theorem (w : KpiWeights) (cap : List CapacityRow) (az : List AzureRow)
    (s : StaffAgg) (t : TeamAgg) :
    ((staffMetricsRow w cap az s).midsprint_addition_pct
      = calculate_midsprint_addition_percentage
          ((((az.filter (fun r => decide (r.staff_email = some s.staff_email))).filter
              (fun r => r.has_midsprint_addition)).map (fun r => r.completed_work)).sum)
          s.completed_work_total)
    ∧ ((staffMetricsRow w cap az s).adhoc_pct
      = calculate_adhoc_percentage
          ((((az.filter (fun r => decide (r.staff_email = some s.staff_email))).filter
              (fun r => r.has_adhoc)).map (fun r => r.completed_work)).sum)
          s.completed_work_total)
    ∧ (s.completed_work_total = 0 →
        (staffMetricsRow w cap az s).midsprint_addition_pct = 0
        ∧ (staffMetricsRow w cap az s).adhoc_pct = 0)
    ∧ ((teamMetricsRow w cap az t).midsprint_addition_pct
      = calculate_midsprint_addition_percentage
          ((((az.filter (fun r => decide (r.team = some t.team))).filter
              (fun r => r.has_midsprint_addition)).map (fun r => r.completed_work)).sum)
          t.completed_work_total)
    ∧ ((teamMetricsRow w cap az t).adhoc_pct
      = calculate_adhoc_percentage
          ((((az.filter (fun r => decide (r.team = some t.team))).filter
              (fun r => r.has_adhoc)).map (fun r => r.completed_work)).sum)
          t.completed_work_total)
    ∧ (t.completed_work_total = 0 →
        (teamMetricsRow w cap az t).midsprint_addition_pct = 0
        ∧ (teamMetricsRow w cap az t).adhoc_pct = 0) := by
  refine ⟨rfl, rfl, fun h => ?_, rfl, rfl, fun h => ?_⟩
  · constructor
    · show calculate_midsprint_addition_percentage _ s.completed_work_total = 0
      simp [calculate_midsprint_addition_percentage, h]
    · show calculate_adhoc_percentage _ s.completed_work_total = 0
      simp [calculate_adhoc_percentage, h]
  · constructor
    · show calculate_midsprint_addition_percentage _ t.completed_work_total = 0
      simp [calculate_midsprint_addition_percentage, h]
    · show calculate_adhoc_percentage _ t.completed_work_total = 0
      simp [calculate_adhoc_percentage, h]

/-- A midsprint-tagged row of staff `a@x` on team Development. -/
def c7Row1 : AzureRow :=
  { staff_email := some "a@x", staff_name := some "A", team := some "Development"
  , original_estimate := 0, completed_work := 10, remaining_work := 0
  , is_done := false, has_midsprint_addition := true, has_adhoc := false }

/-- An untagged row of the same staff member on team Frontend. -/
def c7Row2 : AzureRow :=
  { staff_email := some "a@x", staff_name := some "A", team := some "Frontend"
  , original_estimate := 0, completed_work := 5, remaining_work := 0
  , is_done := false, has_midsprint_addition := false, has_adhoc := false }

/-- The Frontend staff group of `[c7Row1, c7Row2]`. -/
def c7Group2 : StaffAgg :=
  mkStaffAgg { email := "a@x", name := "A", team := "Frontend" } [c7Row2]

/-- Counterexample to C7 as stated: the same email appears in two staff groups
(teams Development and Frontend); for the Frontend group the code's email-only
filter yields midsprint percentage 10/5 = 2, while the claim's
group-membership numerator yields 0. -/
theorem claim_C7_counterexample :
    c7Group2 ∈ aggregate_by_staff [c7Row1, c7Row2]
    ∧ (staffMetricsRow defaultKpiWeights [] [c7Row1, c7Row2] c7Group2).midsprint_addition_pct
        = 2
    ∧ specStaffMidsprintPct [c7Row1, c7Row2] c7Group2 = 0
    ∧ ((2 : ℚ) ≠ 0) := by
  have haggr : aggregate_by_staff [c7Row1, c7Row2]
      = [mkStaffAgg { email := "a@x", name := "A", team := "Development" } [c7Row1],
         c7Group2] := rfl
  have hL : (staffMetricsRow defaultKpiWeights [] [c7Row1, c7Row2]
        c7Group2).midsprint_addition_pct
      = calculate_midsprint_addition_percentage ((10 : ℚ) + 0) ((5 : ℚ) + 0) := rfl
  have hR : specStaffMidsprintPct [c7Row1, c7Row2] c7Group2
      = calculate_midsprint_addition_percentage 0 ((5 : ℚ) + 0) := rfl
  refine ⟨?_, ?_, ?_, by norm_num⟩
  · rw [haggr]
    exact List.mem_cons_of_mem _ (List.mem_cons_self _ _)
  · rw [hL]
    norm_num [calculate_midsprint_addition_percentage]
  · rw [hR]
    norm_num [calculate_midsprint_addition_percentage]

/-- The end-to-end scenario aggregate of the spec: one staff member with
`original_estimate_total = 89`, `completed_work_total = 64`,
`remaining_work_total = 1`, 10 done of 10 tasks. -/
def c8Agg : StaffAgg :=
  { staff_email := "atalaat@youxel.com", staff_name := "Ahmed Talaat"
  , team := "Development"
  , original_estimate_total := 89, completed_work_total := 64
  , remaining_work_total := 1
  , done_count := 10, total_count := 10, midsprint_count := 0, adhoc_count := 1 }

/-- The matching capacity row with 63 remaining hours. -/
def c8Cap : CapacityRow :=
  { staff_member := "Ahmed Talaat <atalaat@youxel.com>", team := "Development"
  , remaining_capacity := 63 }

/-- The single raw task row of the scenario. -/
def c8Azure : AzureRow :=
  { staff_email := some "atalaat@youxel.com", staff_name := some "Ahmed Talaat"
  , team := some "Development"
  , original_estimate := 89, completed_work := 64, remaining_work := 1
  , is_done := true, has_midsprint_addition := false, has_adhoc := true }

/-- C8 (amended): on the scenario input the staff metrics are
`performance_rate = 89/65 ≈ 1.3692`, `utilization = 64/63 ≈ 1.0159`,
`done_tasks_pct = 1`, capacity 63, and with the default weights
`kpi = 0.2·(89/65) + 0.1·(64/63) + 0.7·1 = 44039/40950 ≈ 1.0754`. -/
theorem claim_C8_theorem :
    ((calculate_staff_metrics defaultKpiWeights [c8Agg] [c8Cap] [c8Azure]).map
        (fun m => (m.performance_rate, m.utilization, m.done_tasks_pct, m.capacity, m.kpi)))
      = [((89 : ℚ)/65, (64 : ℚ)/63, 1, 63, (44039 : ℚ)/40950)]
    ∧ ((13692 : ℚ)/10000 < 89/65 ∧ (89 : ℚ)/65 < 13693/10000)
    ∧ ((10158 : ℚ)/10000 < 64/63 ∧ (64 : ℚ)/63 < 10159/10000)
    ∧ ((10754 : ℚ)/10000 < 44039/40950 ∧ (44039 : ℚ)/40950 < 10755/10000) := by
  have h : ((calculate_staff_metrics defaultKpiWeights [c8Agg] [c8Cap] [c8Azure]).map
        (fun m => (m.performance_rate, m.utilization, m.done_tasks_pct, m.capacity, m.kpi)))
      = [(calculate_performance_rate 89 64 1, calculate_utilization 64 63,
          calculate_done_tasks_percentage 10 10, (63 : ℚ),
          calculate_kpi defaultKpiWeights (calculate_performance_rate 89 64 1)
            (calculate_utilization 64 63) (calculate_done_tasks_percentage 10 10))] := rfl
  rw [h]
  norm_num [calculate_performance_rate, calculate_utilization,
    calculate_done_tasks_percentage, calculate_kpi, defaultKpiWeights]

/-- Counterexample to C8 as stated: the scenario's performance rate is
`89/(64+1) = 89/65 ≈ 1.3692`, which is not within 0.01 of the claimed
0.9846. -/
theorem claim_C8_counterexample :
    (staffMetricsRow defaultKpiWeights [c8Cap] [c8Azure] c8Agg).performance_rate = 89/65
    ∧ (9846 : ℚ)/10000 + 1/100 < 89/65 := by
  have h : (staffMetricsRow defaultKpiWeights [c8Cap] [c8Azure] c8Agg).performance_rate
      = calculate_performance_rate 89 64 1 := rfl
  constructor
  · rw [h]
    norm_num [calculate_performance_rate]
  · norm_num

/-- The empty processed frame: no rows and, in particular, none of the
required columns. -/
def c9Frame : ProcessedFrame := { columns := [], rows := [] }

/-- C9: on an input lacking the required columns, `validate_data` raises the
pandas `KeyError` on `Assigned To` (line 202 of `data_processor.py`) instead
of returning the `status = error` report its own missing-columns check
prepared; metric computation on the empty aggregates does return empty
tables. -/
theorem claim_C9_theorem :
    validate_data c9Frame = Except.error "KeyError: Assigned To"
    ∧ calculate_staff_metrics defaultKpiWeights [] [] [] = []
    ∧ calculate_team_metrics defaultKpiWeights [] [] [] = []
    ∧ aggregate_by_staff [] = [] ∧ aggregate_by_team [] = []
    ∧ validate_metrics [] = { status := "success", warnings := [] } :=
  ⟨rfl, rfl, rfl, rfl, rfl, rfl⟩

/-- C10: a row enters some staff group exactly when its email, name and team
are all present, and enters some team group exactly when its team is present;
rows with an unresolvable key appear in no group (there is no group keyed by
an absent value, since every group carries concrete key strings). -/
theorem claim_C10_theorem (rows : List AzureRow) (r : AzureRow) (hr : r ∈ rows) :
    ((staffKey r).isSome = true ↔ ∃ g ∈ aggregate_by_staff rows,
        staffKey r = some { email := g.staff_email, name := g.staff_name, team := g.team })
    ∧ (r.team.isSome = true ↔ ∃ g ∈ aggregate_by_team rows, r.team = some g.team) := by
  constructor
  · constructor
    · intro hk
      rcases Option.isSome_iff_exists.mp hk with ⟨k, hks⟩
      refine ⟨mkStaffAgg k (rows.filter (fun x => decide (staffKey x = some k))), ?_, ?_⟩
      · unfold aggregate_by_staff
        exact List.mem_map_of_mem _
          ((mem_dedupFirst k _).mpr (List.mem_filterMap.mpr ⟨r, hr, hks⟩))
      · exact hks
    · rintro ⟨g, -, hg⟩
      rw [hg]
      rfl
  · constructor
    · intro ht
      rcases Option.isSome_iff_exists.mp ht with ⟨t, hts⟩
      refine ⟨mkTeamAgg t (rows.filter (fun x => decide (x.team = some t))), ?_, ?_⟩
      · unfold aggregate_by_team
        exact List.mem_map_of_mem _
          ((mem_dedupFirst t _).mpr (List.mem_filterMap.mpr ⟨r, hr, hts⟩))
      · exact hts
    · rintro ⟨g, -, hg⟩
      rw [hg]
      rfl

/-- Witness for C10 on a one-row collection with a fully resolvable key. -/
theorem claim_C10_witness :
    ((staffKey exFullRow).isSome = true ↔ ∃ g ∈ aggregate_by_staff [exFullRow],
        staffKey exFullRow
          = some { email := g.staff_email, name := g.staff_name, team := g.team })
    ∧ (exFullRow.team.isSome = true ↔ ∃ g ∈ aggregate_by_team [exFullRow],
        exFullRow.team = some g.team) :=
  claim_C10_theorem [exFullRow] exFullRow (List.mem_cons_self exFullRow [])
